import Mathlib

/-!
# HUGO_SYCN: incremental directory sync and grouped task runner

A shallow embedding of the business logic of the three iterations of the tool:

* `src/2026021201/main.go` (V3.5): `fullSync` with the size / modification-time
  decision, the file-versus-directory conflict policy and error propagation;
* `src/main.go` (V4.9): the grouped run loop, `fullSync` that copies every file,
  `copyFile` and `executeCommand`;
* `src/2026021202/main.go` (V4.0): `executeCommand`.

The operating system is modelled by an explicit state (`State`: a finite-map
style file system, the status channel as a list of events, a write counter) and
an environment (`Env`: the clock, the failure oracle of every system call, what
`filepath.Walk` visits and what an external command does).  The general
theorems quantify over the environment, so they hold for every behaviour of
the operating system; the theorems on a single input fix a small one.

Modelling conventions.
* A path is its list of components (`Path`); `filepath.Join` is concatenation,
  `filepath.Dir` drops the last component, the empty list is the directory that
  relative paths are resolved in.
* `time.Time` of a file is an integer count of nanoseconds; `Add` is addition
  and `After` is `>` (file timestamps are far from the ends of the `int64`
  second counter).
* `filepath.Walk` is the list of callback invocations it makes, in order; the
  walk stops at the first callback that returns a non-nil error.  What a walk
  visits is read from the file system when the walk starts; the writes of the
  callback during that walk do not extend it.  An entry that is not a
  directory carries the size `Lstat` reports and, apart from it, the bytes
  `os.Open` reads: they agree for a regular file, not for a symbolic link.
* The field `copied` of the state and the field `ran` of the run state are
  ghost traces of the calls made; they do not influence the program.
* A Go panic (nil dereference, index out of range) is an explicit result.
-/

namespace HugoSync

/-! ## Paths, metadata, file-system nodes -/

/-- A cleaned path as the list of its components. -/
abbrev Path := List String

/-- The path written with the separator, as it appears in messages. -/
def Path.str (p : Path) : String := String.intercalate "/" p

/-- The part of `os.FileInfo` the program reads. -/
structure FileInfo where
  IsDir : Bool
  Size : Int
  ModTime : Int
deriving DecidableEq

/-- An entry of the file system: a regular file with its content and
modification time, or a directory with the size and modification time that
`Stat` reports for it. -/
inductive Node where
  | file (bytes : List Nat) (modTime : Int)
  | dir (size : Int) (modTime : Int)
deriving DecidableEq

/-- What `Stat` reports for a node. -/
def Node.info : Node → FileInfo
  | .file bytes modTime => ⟨false, bytes.length, modTime⟩
  | .dir size modTime => ⟨true, size, modTime⟩

/-- The file system: which node, if any, each path holds. -/
abbrev FS := Path → Option Node

/-! ## time -/

/-- `2*time.Second`, in nanoseconds. -/
def twoSeconds : Int := 2 * 1000000000

/-- `t.Add(d)`. -/
def time_Add (t d : Int) : Int := t + d

/-- `t.After(u)`. -/
def time_After (t u : Int) : Bool := decide (u < t)

/-! ## What `filepath.Walk` passes to its callback -/

/-- What the walk found at a path of the source tree. -/
inductive SrcNode where
  /-- an entry that is not a directory: the size and the modification time
  that `Lstat` reports for it, the bytes that `os.Open` and `io.Copy` read from
  it, and the error `os.Open` gives for it, if any. For a regular file the
  size is the number of bytes; for a symbolic link it is not, since `Lstat`
  describes the link and `os.Open` follows it -/
  | file (size : Int) (bytes : List Nat) (modTime : Int) (openErr : Option String)
  /-- a directory, with the error of listing it, if any -/
  | dir (size : Int) (modTime : Int) (listErr : Option String)
  /-- an entry whose `Lstat` failed: the callback gets a nil `info` -/
  | unreadable (lstatErr : String)
deriving DecidableEq

/-- One invocation of the walk callback: the path relative to the walk root
(`filepath.Rel(src, path)`) and what was found there. -/
structure WalkEntry where
  rel : Path
  node : SrcNode
deriving DecidableEq

/-- The `info` argument of the callback (nil when `Lstat` failed). -/
def WalkEntry.info (e : WalkEntry) : Option FileInfo :=
  match e.node with
  | .file size _ modTime _ => some ⟨false, size, modTime⟩
  | .dir size modTime _ => some ⟨true, size, modTime⟩
  | .unreadable _ => none

/-- The `err` argument of the callback. -/
def WalkEntry.err (e : WalkEntry) : Option String :=
  match e.node with
  | .file _ _ _ _ => none
  | .dir _ _ listErr => listErr
  | .unreadable lstatErr => some lstatErr

/-- The content `io.Copy` reads from the visited file. -/
def WalkEntry.bytes (e : WalkEntry) : List Nat :=
  match e.node with
  | .file _ bytes _ _ => bytes
  | _ => []

/-- The error of `os.Open` on the visited path, if any. -/
def WalkEntry.openErr (e : WalkEntry) : Option String :=
  match e.node with
  | .file _ _ _ openErr => openErr
  | .dir _ _ _ => none
  | .unreadable lstatErr => some lstatErr

/-! ## Environment and state -/

/-- The environment: everything the operating system decides. -/
structure Env where
  /-- the clock reading at the n-th write to the file system -/
  clock : Nat → Int
  /-- the size `Stat` reports for a freshly made directory -/
  dirSize : Int
  /-- `os.Stat` fails on this path with an error other than not-exist -/
  statFault : Path → Option String
  /-- `os.MkdirAll` fails on this path -/
  mkdirFault : Path → Option String
  /-- `os.Create` fails on this path -/
  createFault : Path → Option String
  /-- `io.Copy` into this path fails after that many bytes -/
  copyFault : Path → Option (Nat × String)
  /-- `os.RemoveAll` fails on this path (and removes nothing) -/
  removeFault : Path → Bool
  /-- the callback invocations `filepath.Walk` makes for a non-empty root, on
  the current file system -/
  walk : FS → String → List WalkEntry
  /-- running program `name` with `args` in directory `dir`: the file system
  it leaves and the error of `cmd.Run`, if any -/
  exec : FS → String → List String → String → FS × Option String

/-- The state of a run. `copied` is a ghost trace: the destination of every
`copyFile` call, in order. -/
structure State where
  fs : FS
  /-- the strings sent on `statusChan`, oldest first -/
  events : List String
  /-- the number of writes made so far -/
  tick : Nat
  copied : List Path

/-- The outcome of a Go function returning `error`. -/
inductive GoResult where
  | nil
  | error (msg : String)
  | panic (msg : String)
deriving DecidableEq

/-- `statusChan <- msg`. -/
def State.send (s : State) (msg : String) : State :=
  { s with events := s.events ++ [msg] }

/-- The state after writing `n` at path `p`. -/
def State.put (s : State) (p : Path) (n : Node) : State :=
  { s with fs := fun q => if q = p then some n else s.fs q, tick := s.tick + 1 }

/-! ## System calls -/

/-- The three outcomes of `tInfo, err := os.Stat(p)`: `err == nil` with an
info, `os.IsNotExist(err)` with a nil info, another error with a nil info. -/
inductive StatResult where
  | ok (tInfo : FileInfo)
  | notExist
  | failed (msg : String)
deriving DecidableEq

/-- `os.Stat`. -/
def os_Stat (env : Env) (s : State) (p : Path) : StatResult :=
  match env.statFault p with
  | some msg => .failed msg
  | none =>
    match s.fs p with
    | some n => .ok n.info
    | none => .notExist

/-- `os.RemoveAll`: removes the path and everything below it. The callers
discard its error. -/
def os_RemoveAll (env : Env) (s : State) (p : Path) : State :=
  if env.removeFault p then s
  else { s with fs := fun q => if p.isPrefixOf q then none else s.fs q, tick := s.tick + 1 }

/-- Some component of the chain leading to `p` (or `p` itself) is a regular
file. -/
def blockedByFile (fs : FS) (p : Path) : Bool :=
  p.inits.any fun q => match fs q with
    | some (.file _ _) => true
    | _ => false

/-- `os.MkdirAll(p, 0755)`: makes every missing directory of the chain; fails,
changing nothing, when a component is a regular file. -/
def os_MkdirAll (env : Env) (s : State) (p : Path) : State × Option String :=
  match env.mkdirFault p with
  | some msg => (s, some msg)
  | none =>
    if blockedByFile s.fs p then (s, some ("mkdir " ++ p.str ++ ": not a directory"))
    else
      ({ s with
          fs := fun q =>
            if q.isPrefixOf p && q != [] && (s.fs q).isNone
            then some (.dir env.dirSize (env.clock s.tick)) else s.fs q,
          tick := s.tick + 1 }, none)

/-- The directory of `p` exists (the empty path is the directory relative
paths start from). -/
def parentIsDir (fs : FS) (p : Path) : Bool :=
  p.dropLast == [] || match fs p.dropLast with
    | some (.dir _ _) => true
    | _ => false

/-- `os.Create(p)`: makes or truncates the regular file `p`. -/
def os_Create (env : Env) (s : State) (p : Path) : State × Option String :=
  match env.createFault p with
  | some msg => (s, some msg)
  | none =>
    match s.fs p with
    | some (.dir _ _) => (s, some ("open " ++ p.str ++ ": is a directory"))
    | _ =>
      if parentIsDir s.fs p then (s.put p (.file [] (env.clock s.tick)), none)
      else (s, some ("open " ++ p.str ++ ": no such file or directory"))

/-- `io.Copy(d, s)` into the created file `p`: writes the whole content, or
the part written before the failure. -/
def io_Copy (env : Env) (s : State) (p : Path) (bytes : List Nat) : State × Option String :=
  match env.copyFault p with
  | some (n, msg) => (s.put p (.file (bytes.take n) (env.clock s.tick)), some msg)
  | none => (s.put p (.file bytes (env.clock s.tick)), none)

/-! ## strings, fmt, filepath -/

/-- Splitting a list of characters at every occurrence of `sep`. -/
def splitOnChar (sep : Char) : List Char → List (List Char)
  | [] => [[]]
  | c :: cs =>
    if c = sep then [] :: splitOnChar sep cs
    else
      match splitOnChar sep cs with
      | [] => [[c]]
      | h :: t => (c :: h) :: t

/-- `strings.Split(s, sep)` for a one-character separator. -/
def strings_Split (s : String) (sep : Char) : List String :=
  (splitOnChar sep s.data).map String.mk

/-- `unicode.IsSpace`. -/
def unicode_IsSpace (c : Char) : Bool :=
  c = '\t' || c = '\n' || c = '\x0b' || c = '\x0c' || c = '\r' || c = ' ' ||
  c.toNat = 0x85 || c.toNat = 0xA0 || c.toNat = 0x1680 ||
  (0x2000 ≤ c.toNat && c.toNat ≤ 0x200a) ||
  c.toNat = 0x2028 || c.toNat = 0x2029 || c.toNat = 0x202f || c.toNat = 0x205f ||
  c.toNat = 0x3000

/-- `strings.TrimSpace`. -/
def strings_TrimSpace (s : String) : String :=
  String.mk ((s.data.dropWhile unicode_IsSpace).reverse.dropWhile unicode_IsSpace).reverse

/-- The loop of `strings.Fields`: `cur` is the field being read, reversed. -/
def fieldsAux : List Char → List Char → List String
  | [], cur => if cur = [] then [] else [String.mk cur.reverse]
  | c :: cs, cur =>
    if unicode_IsSpace c then
      (if cur = [] then fieldsAux cs [] else String.mk cur.reverse :: fieldsAux cs [])
    else fieldsAux cs (c :: cur)

/-- `strings.Fields`. -/
def strings_Fields (s : String) : List String := fieldsAux s.data []

/-- `fmt.Sprintf("%d", n)`. -/
def fmt_Sprintf_d (n : Int) : String := toString n

/-- The components of a path string (separator `/`; empty components carry no
meaning). The empty string gives the empty path. -/
def pathOf (s : String) : Path := (strings_Split s '/').filter (fun c => c != "")

/-- `filepath.Join(dst, rel)`. -/
def filepath_Join (dst : String) (rel : Path) : Path := pathOf dst ++ rel

/-- `filepath.Dir`. -/
def filepath_Dir (p : Path) : Path := p.dropLast

/-- `filepath.Walk(root, fn)`, as the list of callback invocations: `Lstat` of
the empty string fails, so the callback is invoked once, with the error;
otherwise the environment lists what is visited. -/
def filepath_Walk (env : Env) (s : State) (root : String) : List WalkEntry :=
  if root = "" then [⟨[], .unreadable "lstat : no such file or directory"⟩]
  else env.walk s.fs root

/-! ## src/2026021201/main.go (V3.5) -/

namespace V35

/-- `copyFile(src, dst)`, lines 275-291; the source is the visited entry. -/
def copyFile (env : Env) (s : State) (e : WalkEntry) (dst : Path) : State × GoResult :=
  let s0 : State := { s with copied := s.copied ++ [dst] }
  -- if err := os.MkdirAll(filepath.Dir(dst), 0755); err != nil { return err }
  match os_MkdirAll env s0 (filepath_Dir dst) with
  | (s1, some msg) => (s1, .error msg)
  | (s1, none) =>
    -- s, err := os.Open(src); if err != nil { return err }
    match e.openErr with
    | some msg => (s1, .error msg)
    | none =>
      -- d, err := os.Create(dst); if err != nil { return err }
      match os_Create env s1 dst with
      | (s2, some msg) => (s2, .error msg)
      | (s2, none) =>
        -- _, err = io.Copy(d, s); return err
        match io_Copy env s2 dst e.bytes with
        | (s3, some msg) => (s3, .error msg)
        | (s3, none) => (s3, .nil)

/-- The first `if` of the callback, lines 259-265: `none` is the return of the
conflict error, `some s1` the state the callback goes on with. -/
def resolveConflict (env : Env) (force : Bool) (s : State) (targetPath : Path)
    (info : FileInfo) : StatResult → Option State
  | .ok tInfo =>
    -- err == nil && info.IsDir() != tInfo.IsDir()
    if info.IsDir != tInfo.IsDir then
      if force then some (os_RemoveAll env s targetPath) else none
    else some s
  | .notExist => some s
  | .failed _ => some s

/-- The condition of the second `if`, line 267, on the values the `Stat` of
line 257 returned: `none` is the panic of calling `Size()` on a nil `tInfo`. -/
def needsCopy (info : FileInfo) : StatResult → Option Bool
  | .notExist => some true
  | .ok tInfo =>
    some (tInfo.Size != info.Size ||
      time_After info.ModTime (time_Add tInfo.ModTime twoSeconds))
  | .failed _ => none

/-- The callback passed to `filepath.Walk`, lines 250-272. -/
def walkFn (env : Env) (dst : String) (force : Bool) (s : State) (e : WalkEntry) :
    State × GoResult :=
  match e.node with
  -- if err != nil || info.IsDir() { return nil }
  | .unreadable _ => (s, .nil)
  | .dir _ _ _ => (s, .nil)
  | .file size _ modTime _ =>
    let info : FileInfo := ⟨false, size, modTime⟩
    let rel := e.rel
    let targetPath := filepath_Join dst rel
    let st := os_Stat env s targetPath
    match resolveConflict env force s targetPath info st with
    | none => (s, .error ("冲突且未开启强制模式: " ++ rel.str))
    | some s1 =>
      match needsCopy info st with
      | none => (s1, .panic "invalid memory address or nil pointer dereference")
      | some true => copyFile env (s1.send ("拷贝: " ++ rel.str)) e targetPath
      | some false => (s1, .nil)

/-- The walk: the callback on every entry in order, stopping at the first
result that is not nil. -/
def walkLoop (env : Env) (dst : String) (force : Bool) :
    List WalkEntry → State → State × GoResult
  | [], s => (s, .nil)
  | e :: es, s =>
    match walkFn env dst force s e with
    | (s1, .nil) => walkLoop env dst force es s1
    | (s1, r) => (s1, r)

/-- `fullSync(src, dst, force)`, lines 249-273. -/
def fullSync (env : Env) (src dst : String) (force : Bool) (s : State) : State × GoResult :=
  walkLoop env dst force (filepath_Walk env s src) s

end V35

/-! ## src/main.go (V4.9) -/

namespace V49

abbrev TaskType := String

def TaskSync : TaskType := "SYNC"

def TaskCmd : TaskType := "CMD"

/-- `TaskItem`; the field `Type` is written `Typ`. -/
structure TaskItem where
  Typ : TaskType
  GroupID : Int
  Src : String
  Dst : String
  Root : String
  Cmd : String
  Desc : String
deriving DecidableEq

/-- `copyFile(src, dst)`, lines 282-294: every error is dropped. -/
def copyFile (env : Env) (s : State) (e : WalkEntry) (dst : Path) : State :=
  let s0 : State := { s with copied := s.copied ++ [dst] }
  -- s, err := os.Open(src); if err != nil { return }
  match e.openErr with
  | some _ => s0
  | none =>
    -- d, err := os.Create(dst); if err != nil { return }
    match os_Create env s0 dst with
    | (s1, some _) => s1
    | (s1, none) =>
      -- _, _ = io.Copy(d, s)
      (io_Copy env s1 dst e.bytes).1

/-- The callback passed to `filepath.Walk`, lines 268-280; it always returns
nil. -/
def walkFn (env : Env) (dst : String) (force : Bool) (s : State) (e : WalkEntry) : State :=
  match e.node with
  -- if err != nil || info.IsDir() { return nil }
  | .unreadable _ => s
  | .dir _ _ _ => s
  | .file _ _ _ _ =>
    let rel := e.rel
    let target := filepath_Join dst rel
    -- if force { os.MkdirAll(filepath.Dir(target), 0755) }
    let s1 := if force then (os_MkdirAll env s (filepath_Dir target)).1 else s
    -- statusChan <- "同步: " + rel
    let s2 := s1.send ("同步: " ++ rel.str)
    copyFile env s2 e target

/-- `fullSync(src, dst, force)`, lines 267-281: the result of the walk is
dropped. -/
def fullSync (env : Env) (src dst : String) (force : Bool) (s : State) : State :=
  (filepath_Walk env s src).foldl (walkFn env dst force) s

/-- `executeCommand(command, dir)`, lines 231-241. -/
def executeCommand (env : Env) (s : State) (command dir : String) : State × GoResult :=
  -- if command == "" { return }
  if command = "" then (s, .nil)
  else
    -- args := strings.Fields(command); exec.Command(args[0], args[1:]...)
    match strings_Fields command with
    | [] => (s, .panic "index out of range [0] with length 0")
    | name :: args =>
      -- statusChan <- "運行中: " + command
      let s1 := s.send ("運行中: " ++ command)
      -- _ = cmd.Run()
      ({ s1 with fs := (env.exec s1.fs name args dir).1 }, .nil)

/-- The state of the run loop. `ran` is a ghost trace: the tasks the loop has
dispatched, in order. -/
structure RunState where
  st : State
  ran : List TaskItem

/-- The body of the inner loop for a task of the current group, lines 164-168. -/
def runTask (env : Env) (force : Bool) (r : RunState) (t : TaskItem) : RunState × GoResult :=
  if t.Typ = TaskSync then
    ({ st := fullSync env t.Src t.Dst force r.st, ran := r.ran ++ [t] }, .nil)
  else
    match executeCommand env r.st t.Cmd t.Root with
    | (s1, res) => ({ st := s1, ran := r.ran ++ [t] }, res)

/-- The inner loop `for _, t := range tasks`, lines 162-170. -/
def runGroup (env : Env) (force : Bool) (gID : String) :
    List TaskItem → RunState → RunState × GoResult
  | [], r => (r, .nil)
  | t :: ts, r =>
    if fmt_Sprintf_d t.GroupID = gID then
      match runTask env force r t with
      | (r1, .nil) => runGroup env force gID ts r1
      | (r1, res) => (r1, res)
    else runGroup env force gID ts r

/-- The outer loop `for _, gID := range orders`, lines 156-171. -/
def runOrders (env : Env) (force : Bool) (tasks : List TaskItem) :
    List String → RunState → RunState × GoResult
  | [], r => (r, .nil)
  | g :: gs, r =>
    let gID := strings_TrimSpace g
    if gID = "" then runOrders env force tasks gs r
    else
      match runGroup env force gID tasks { r with st := r.st.send ("正在運行組: " ++ gID) } with
      | (r1, .nil) => runOrders env force tasks gs r1
      | (r1, res) => (r1, res)

/-- The goroutine started by the run button, lines 153-172, on the collected
tasks and the text of the order entry. -/
def run (env : Env) (tasks : List TaskItem) (orderText : String) (force : Bool) (s : State) :
    RunState × GoResult :=
  match runOrders env force tasks (strings_Split orderText ',') ⟨s, []⟩ with
  | (r1, .nil) => ({ r1 with st := r1.st.send "✅ 全部組任務執行完畢" }, .nil)
  | (r1, res) => (r1, res)

/-- The group-order sequence in the words of the specification: the
comma-separated tokens, trimmed, empty tokens discarded. -/
def orderTokens (orderText : String) : List String :=
  ((strings_Split orderText ',').map strings_TrimSpace).filter (fun g => g != "")

/-- The execution order in the words of the specification: for every token in
order, the tasks, in insertion order, whose group id stringifies to it. -/
def scheduled (tasks : List TaskItem) (orderText : String) : List TaskItem :=
  (orderTokens orderText).flatMap fun g => tasks.filter fun t => fmt_Sprintf_d t.GroupID = g

end V49

/-! ## Sample data -/

/-- An environment without faults: the clock reads `now` at every write, the
walk of every root visits `entries`, commands do nothing and succeed. -/
def calmEnv (now : Int) (entries : List WalkEntry) : Env where
  clock := fun _ => now
  dirSize := 0
  statFault := fun _ => none
  mkdirFault := fun _ => none
  createFault := fun _ => none
  copyFault := fun _ => none
  removeFault := fun _ => false
  walk := fun _ _ => entries
  exec := fun fs _ _ _ => (fs, none)

/-- A state with the given file system and nothing sent or copied yet. -/
def freshState (fs : FS) : State := ⟨fs, [], 0, []⟩

/-- The empty file system. -/
def emptyFS : FS := fun _ => none

/-- A file system holding one node. -/
def singleFS (p : Path) (n : Node) : FS := fun q => if q = p then some n else none

/-- A walk of three files `a`, `x`, `z`. -/
def threeFiles : List WalkEntry :=
  [⟨["a"], .file 1 [7] 10 none⟩, ⟨["x"], .file 1 [1] 5 none⟩, ⟨["z"], .file 1 [2] 5 none⟩]

/-- A destination `d` that holds a directory at `d/x`. -/
def dirAtX : FS := fun q =>
  if q = ["d"] then some (.dir 0 0)
  else if q = ["d", "x"] then some (.dir 0 0)
  else none

/-- A destination `d` that holds the two-byte regular file `d/a`, dated 50. -/
def fileAtA : FS := fun q =>
  if q = ["d"] then some (.dir 0 0)
  else if q = ["d", "a"] then some (.file [1, 2] 50)
  else none

/-- The calm environment, except that `os.Create` of `d/x` is refused. -/
def denyCreateX : Env :=
  { calmEnv 0 threeFiles with
    createFault := fun q => if q = ["d", "x"] then some "open d/x: permission denied" else none }

/-- A walk of one empty file `foo`, dated 100. -/
def emptyFoo : List WalkEntry := [⟨["foo"], .file 0 [] 100 none⟩]

/-- A destination `d` that holds a directory at `d/foo`, of reported size 0 and
dated 100, with a file inside. -/
def dirAtFoo : FS := fun q =>
  if q = ["d"] then some (.dir 0 0)
  else if q = ["d", "foo"] then some (.dir 0 100)
  else if q = ["d", "foo", "old.txt"] then some (.file [9, 9] 90)
  else none

/-- A destination that holds the directory `d` and nothing else. -/
def onlyD : FS := singleFS ["d"] (.dir 0 0)

/-- A command task of group 1 whose command line is one blank, followed by a
command task of group 1 that runs `hugo`. -/
def blankThenHugo : List V49.TaskItem :=
  [⟨"CMD", 1, "", "", "", " ", ""⟩, ⟨"CMD", 1, "", "", "", "hugo", ""⟩]

/-- A walk of one file `sub/a.txt`. -/
def inSub : List WalkEntry := [⟨["sub", "a.txt"], .file 3 [1, 2, 3] 10 none⟩]

/-- A sync task of group 1 from `/s` with an empty destination. -/
def syncToNowhere : List V49.TaskItem := [⟨"SYNC", 1, "/s", "", "", "", ""⟩]

/-- A walk of one file `f.txt`. -/
def oneF : List WalkEntry := [⟨["f.txt"], .file 1 [1] 5 none⟩]

/-- `executeCommand(command, dir)` of src/2026021201/main.go, lines 233-247. -/
def V35.executeCommand (env : Env) (s : State) (command dir : String) : State × GoResult :=
  -- if command == "" { return }
  if command = "" then (s, .nil)
  else
    -- args := strings.Fields(command); exec.Command(args[0], args[1:]...)
    match strings_Fields command with
    | [] => (s, .panic "index out of range [0] with length 0")
    | name :: args =>
      -- statusChan <- "执行: " + command
      let s1 := s.send ("执行: " ++ command)
      -- if out, err := cmd.CombinedOutput(); err != nil { ... } else { ... }
      match env.exec s1.fs name args dir with
      | (fs1, some err) => (({ s1 with fs := fs1 } : State).send ("执行失败: " ++ err), .nil)
      | (fs1, none) => (({ s1 with fs := fs1 } : State).send "执行成功", .nil)

/-- `executeCommand(command, dir)` of src/2026021202/main.go, lines 270-279. -/
def V40.executeCommand (env : Env) (s : State) (command dir : String) : State × GoResult :=
  -- if command == "" { return }
  if command = "" then (s, .nil)
  else
    -- args := strings.Fields(command); exec.Command(args[0], args[1:]...)
    match strings_Fields command with
    | [] => (s, .panic "index out of range [0] with length 0")
    | name :: args =>
      -- statusChan <- "运行命令: " + command
      let s1 := s.send ("运行命令: " ++ command)
      -- cmd.Run()
      ({ s1 with fs := (env.exec s1.fs name args dir).1 }, .nil)

/-- A walk that reports the directory `sub` with the error of listing it, then
visits the file `z`. -/
def lockedSubThenZ : List WalkEntry :=
  [⟨["sub"], .dir 0 0 (some "open /s/sub: permission denied")⟩, ⟨["z"], .file 1 [2] 5 none⟩]

/-- A walk of one file `a`. -/
def oneA : List WalkEntry := [⟨["a"], .file 1 [7] 10 none⟩]

/-- The calm environment, except that `os.Stat` of `d/a` is refused. -/
def denyStatA : Env :=
  { calmEnv 0 oneA with
    statFault := fun q => if q = ["d", "a"] then some "stat d/a: permission denied" else none }

end HugoSync

/-! # Theorems -/

namespace HugoSync

/-! ## The system calls leave the channel and the ghost trace alone -/

@[simp] theorem send_events (s : State) (msg : String) :
    (s.send msg).events = s.events ++ [msg] := rfl

@[simp] theorem send_copied (s : State) (msg : String) : (s.send msg).copied = s.copied := rfl

@[simp] theorem send_fs (s : State) (msg : String) : (s.send msg).fs = s.fs := rfl

theorem put_fs_self (s : State) (p : Path) (n : Node) : (s.put p n).fs p = some n := by
  simp [State.put]

@[simp] theorem put_events (s : State) (p : Path) (n : Node) : (s.put p n).events = s.events := rfl

@[simp] theorem put_copied (s : State) (p : Path) (n : Node) : (s.put p n).copied = s.copied := rfl

@[simp] theorem mkdirAll_events (env : Env) (s : State) (p : Path) :
    (os_MkdirAll env s p).1.events = s.events := by
  unfold os_MkdirAll
  split
  · rfl
  · split <;> rfl

@[simp] theorem mkdirAll_copied (env : Env) (s : State) (p : Path) :
    (os_MkdirAll env s p).1.copied = s.copied := by
  unfold os_MkdirAll
  split
  · rfl
  · split <;> rfl

@[simp] theorem create_events (env : Env) (s : State) (p : Path) :
    (os_Create env s p).1.events = s.events := by
  unfold os_Create
  split
  · rfl
  · split
    · rfl
    · split <;> rfl

@[simp] theorem create_copied (env : Env) (s : State) (p : Path) :
    (os_Create env s p).1.copied = s.copied := by
  unfold os_Create
  split
  · rfl
  · split
    · rfl
    · split <;> rfl

@[simp] theorem ioCopy_events (env : Env) (s : State) (p : Path) (b : List Nat) :
    (io_Copy env s p b).1.events = s.events := by
  unfold io_Copy
  split <;> rfl

@[simp] theorem ioCopy_copied (env : Env) (s : State) (p : Path) (b : List Nat) :
    (io_Copy env s p b).1.copied = s.copied := by
  unfold io_Copy
  split <;> rfl

namespace V35

/-- Every call of `copyFile` is recorded, whatever its outcome. -/
theorem copyFile_copied (env : Env) (s : State) (e : WalkEntry) (dst : Path) :
    (copyFile env s e dst).1.copied = s.copied ++ [dst] := by
  unfold copyFile
  simp only
  split
  · next s1 msg h =>
    have := mkdirAll_copied env { s with copied := s.copied ++ [dst] } (filepath_Dir dst)
    rw [h] at this; exact this
  · next s1 h =>
    have h1 := mkdirAll_copied env { s with copied := s.copied ++ [dst] } (filepath_Dir dst)
    rw [h] at h1
    simp only at h1
    split
    · exact h1
    · split
      · next s2 msg h2 =>
        have := create_copied env s1 dst
        rw [h2] at this; simp only at this; rw [this, h1]
      · next s2 h2 =>
        have h3 := create_copied env s1 dst
        rw [h2] at h3; simp only at h3
        split
        · next s3 msg h4 =>
          have := ioCopy_copied env s2 dst e.bytes
          rw [h4] at this; simp only at this; rw [this, h3, h1]
        · next s3 h4 =>
          have := ioCopy_copied env s2 dst e.bytes
          rw [h4] at this; simp only at this; rw [this, h3, h1]

/-- The function `copyFile` sends nothing on the status channel. -/
theorem copyFile_events (env : Env) (s : State) (e : WalkEntry) (dst : Path) :
    (copyFile env s e dst).1.events = s.events := by
  unfold copyFile
  simp only
  split
  · next s1 msg h =>
    have := mkdirAll_events env { s with copied := s.copied ++ [dst] } (filepath_Dir dst)
    rw [h] at this; exact this
  · next s1 h =>
    have h1 := mkdirAll_events env { s with copied := s.copied ++ [dst] } (filepath_Dir dst)
    rw [h] at h1
    simp only at h1
    split
    · exact h1
    · split
      · next s2 msg h2 =>
        have := create_events env s1 dst
        rw [h2] at this; simp only at this; rw [this, h1]
      · next s2 h2 =>
        have h3 := create_events env s1 dst
        rw [h2] at h3; simp only at h3
        split
        · next s3 msg h4 =>
          have := ioCopy_events env s2 dst e.bytes
          rw [h4] at this; simp only at this; rw [this, h3, h1]
        · next s3 h4 =>
          have := ioCopy_events env s2 dst e.bytes
          rw [h4] at this; simp only at this; rw [this, h3, h1]

end V35

/-- C1: in `fullSync` of src/2026021201/main.go, when the callback reaches a
source file whose destination entry exists and is a regular file, the file is
copied and the copy event is sent if and only if the destination size differs
from the source size or the source modification time is strictly later than the
destination modification time plus 2 seconds; otherwise the callback returns
nil and leaves the state as it was (no copy, no event). -/
theorem C1_copy_iff_size_differs_or_newer (env : Env) (dst : String) (force : Bool) (s : State)
    (rel : Path) (size : Int) (bytes : List Nat) (modTime : Int) (openErr : Option String)
    (tInfo : FileInfo)
    (hstat : os_Stat env s (filepath_Join dst rel) = .ok tInfo)
    (hfile : tInfo.IsDir = false) :
    ((V35.walkFn env dst force s ⟨rel, .file size bytes modTime openErr⟩).1.copied
        = s.copied ++ [filepath_Join dst rel]
      ↔ (tInfo.Size ≠ size ∨ tInfo.ModTime + twoSeconds < modTime)) ∧
    ((V35.walkFn env dst force s ⟨rel, .file size bytes modTime openErr⟩).1.events
        = s.events ++ ["拷贝: " ++ rel.str]
      ↔ (tInfo.Size ≠ size ∨ tInfo.ModTime + twoSeconds < modTime)) ∧
    ((tInfo.Size ≠ size ∨ tInfo.ModTime + twoSeconds < modTime) →
      V35.walkFn env dst force s ⟨rel, .file size bytes modTime openErr⟩
        = V35.copyFile env (s.send ("拷贝: " ++ rel.str)) ⟨rel, .file size bytes modTime openErr⟩
            (filepath_Join dst rel)) ∧
    (¬ (tInfo.Size ≠ size ∨ tInfo.ModTime + twoSeconds < modTime) →
      V35.walkFn env dst force s ⟨rel, .file size bytes modTime openErr⟩ = (s, .nil)) := by
  have hcopy : (tInfo.Size ≠ size ∨ tInfo.ModTime + twoSeconds < modTime) →
      V35.walkFn env dst force s ⟨rel, .file size bytes modTime openErr⟩
        = V35.copyFile env (s.send ("拷贝: " ++ rel.str)) ⟨rel, .file size bytes modTime openErr⟩
            (filepath_Join dst rel) := by
    intro hc
    have hb : (tInfo.Size != size ||
        time_After modTime (time_Add tInfo.ModTime twoSeconds)) = true := by
      simpa [time_After, time_Add] using hc
    simp [V35.walkFn, hstat, V35.resolveConflict, V35.needsCopy, hfile, hb]
  have hskip : ¬ (tInfo.Size ≠ size ∨ tInfo.ModTime + twoSeconds < modTime) →
      V35.walkFn env dst force s ⟨rel, .file size bytes modTime openErr⟩ = (s, .nil) := by
    intro hc
    have hb : (tInfo.Size != size ||
        time_After modTime (time_Add tInfo.ModTime twoSeconds)) = false := by
      simpa [time_After, time_Add] using hc
    simp [V35.walkFn, hstat, V35.resolveConflict, V35.needsCopy, hfile, hb]
  refine ⟨⟨fun h => ?_, fun hc => ?_⟩, ⟨fun h => ?_, fun hc => ?_⟩, hcopy, hskip⟩
  · by_contra hc
    rw [hskip hc] at h
    simp at h
  · rw [hcopy hc, V35.copyFile_copied]; rfl
  · by_contra hc
    rw [hskip hc] at h
    simp at h
  · rw [hcopy hc, V35.copyFile_events]; rfl

/-- The hypotheses and the copy branch of C1 on a destination file of another
size: the file `a` is copied over `d/a`. -/
theorem C1_copy_iff_size_differs_or_newer_witness :
    os_Stat (calmEnv 0 []) (freshState fileAtA) (filepath_Join "/d" ["a"]) = .ok ⟨false, 2, 50⟩ ∧
    (V35.walkFn (calmEnv 0 []) "/d" false (freshState fileAtA) ⟨["a"], .file 1 [7] 10 none⟩).1.copied
      = [] ++ [filepath_Join "/d" ["a"]] :=
  ⟨by decide,
   (C1_copy_iff_size_differs_or_newer (calmEnv 0 []) "/d" false (freshState fileAtA) ["a"] 1 [7]
      10 none ⟨false, 2, 50⟩ (by decide) rfl).1.2 (Or.inl (by decide))⟩

namespace V35

/-- A walk whose first part ends with nil goes on with the rest. -/
theorem walkLoop_append (env : Env) (dst : String) (force : Bool) (pre es : List WalkEntry) :
    ∀ (s0 s : State), walkLoop env dst force pre s0 = (s, .nil) →
      walkLoop env dst force (pre ++ es) s0 = walkLoop env dst force es s := by
  induction pre with
  | nil =>
    intro s0 s h
    simp only [walkLoop, Prod.mk.injEq, and_true] at h
    subst h
    rfl
  | cons e pre ih =>
    intro s0 s h
    simp only [List.cons_append, walkLoop] at h ⊢
    split at h
    · next s1 h1 =>
      exact ih s1 s h
    · next s1 r hne h1 =>
      simp only [Prod.mk.injEq] at h
      exact absurd h.2 hne

/-- A callback result other than nil ends the walk there. -/
theorem walkLoop_stop (env : Env) (dst : String) (force : Bool) (e : WalkEntry)
    (es : List WalkEntry) (s s1 : State) (r : GoResult) (hr : r ≠ .nil)
    (h : walkFn env dst force s e = (s1, r)) :
    walkLoop env dst force (e :: es) s = (s1, r) := by
  simp only [walkLoop]
  split
  · next s2 h2 =>
    rw [h] at h2
    simp only [Prod.mk.injEq] at h2
    exact absurd h2.2 hr
  · next s2 r2 _ h2 =>
    rw [h] at h2
    exact h2.symm

end V35

/-- C3: in `fullSync` of src/2026021201/main.go with force=false, when the
walk reaches (without an earlier error) a source file whose destination path
holds a directory, `fullSync` returns the conflict error that names the
relative path of the file, and the final state is the state in which the walk
reached the file: that file is not copied, no event is sent for it, no later
file is processed, and what was copied before stays. -/
theorem C3_conflict_aborts_without_force (env : Env) (src dst : String) (s0 s : State)
    (pre post : List WalkEntry) (rel : Path) (size : Int) (bytes : List Nat) (modTime : Int)
    (openErr : Option String) (tInfo : FileInfo)
    (hwalk : filepath_Walk env s0 src = pre ++ ⟨rel, .file size bytes modTime openErr⟩ :: post)
    (hpre : V35.walkLoop env dst false pre s0 = (s, .nil))
    (hstat : os_Stat env s (filepath_Join dst rel) = .ok tInfo)
    (hdir : tInfo.IsDir = true) :
    V35.fullSync env src dst false s0
      = (s, .error ("冲突且未开启强制模式: " ++ rel.str)) := by
  unfold V35.fullSync
  rw [hwalk, V35.walkLoop_append env dst false pre _ s0 s hpre]
  apply V35.walkLoop_stop
  · simp
  · simp [V35.walkFn, hstat, V35.resolveConflict, hdir]

/-- The hypotheses and the conclusion of C3 on the walk `a`, `x`, `z` into a
destination with a directory at `d/x`: `a` is copied, the sync stops at `x`. -/
theorem C3_conflict_aborts_without_force_witness :
    os_Stat (calmEnv 0 threeFiles)
        (V35.walkLoop (calmEnv 0 threeFiles) "/d" false [⟨["a"], .file 1 [7] 10 none⟩]
          (freshState dirAtX)).1 (filepath_Join "/d" ["x"]) = .ok ⟨true, 0, 0⟩ ∧
    V35.fullSync (calmEnv 0 threeFiles) "/s" "/d" false (freshState dirAtX)
      = ((V35.walkLoop (calmEnv 0 threeFiles) "/d" false [⟨["a"], .file 1 [7] 10 none⟩]
          (freshState dirAtX)).1, .error ("冲突且未开启强制模式: " ++ Path.str ["x"])) :=
  ⟨by decide,
   C3_conflict_aborts_without_force (calmEnv 0 threeFiles) "/s" "/d" (freshState dirAtX) _
     [⟨["a"], .file 1 [7] 10 none⟩] [⟨["z"], .file 1 [2] 5 none⟩] ["x"] 1 [1] 5 none ⟨true, 0, 0⟩
     (by decide) (Prod.ext rfl (by decide)) (by decide) rfl⟩

/-- C4 (failing input): with force=true, an empty source file `foo` and a
destination directory `d/foo` of reported size 0 that is not older than the
file, `fullSync` returns nil after removing the directory (and what it held)
without copying the file: the path `d/foo` ends up absent, `copyFile` is never
called and no event is sent. -/
theorem C4_force_removes_directory_without_copy :
    (V35.fullSync (calmEnv 200 emptyFoo) "/s" "/d" true (freshState dirAtFoo)).2 = .nil ∧
    (V35.fullSync (calmEnv 200 emptyFoo) "/s" "/d" true (freshState dirAtFoo)).1.fs ["d", "foo"]
      = none ∧
    (V35.fullSync (calmEnv 200 emptyFoo) "/s" "/d" true (freshState dirAtFoo)).1.fs
      ["d", "foo", "old.txt"] = none ∧
    (V35.fullSync (calmEnv 200 emptyFoo) "/s" "/d" true (freshState dirAtFoo)).1.copied = [] ∧
    (V35.fullSync (calmEnv 200 emptyFoo) "/s" "/d" true (freshState dirAtFoo)).1.events = [] := by
  decide

namespace V35

/-- Each of the four steps of `copyFile` that can fail makes `copyFile` return
that error, in the state the failing step left. -/
theorem copyFile_of_failed_step (env : Env) (s : State) (e : WalkEntry) (dst : Path)
    (s' : State) (msg : String)
    (h : os_MkdirAll env { s with copied := s.copied ++ [dst] } (filepath_Dir dst) = (s', some msg)
      ∨ (os_MkdirAll env { s with copied := s.copied ++ [dst] } (filepath_Dir dst) = (s', none)
          ∧ e.openErr = some msg)
      ∨ (∃ s1, os_MkdirAll env { s with copied := s.copied ++ [dst] } (filepath_Dir dst)
            = (s1, none)
          ∧ e.openErr = none ∧ os_Create env s1 dst = (s', some msg))
      ∨ (∃ s1 s2, os_MkdirAll env { s with copied := s.copied ++ [dst] } (filepath_Dir dst)
            = (s1, none)
          ∧ e.openErr = none ∧ os_Create env s1 dst = (s2, none)
          ∧ io_Copy env s2 dst e.bytes = (s', some msg))) :
    copyFile env s e dst = (s', .error msg) := by
  unfold copyFile
  rcases h with h | ⟨h, ho⟩ | ⟨s1, h, ho, hc⟩ | ⟨s1, s2, h, ho, hc, hi⟩
  · simp [h]
  · simp [h, ho]
  · simp [h, ho, hc]
  · simp [h, ho, hc, hi]

end V35

/-- C10: in `fullSync` of src/2026021201/main.go, when the walk reaches (without
an earlier error) a file that the callback decides to copy, and the copy fails
at creating the parent directories, at opening the source, at creating the
destination or in the byte copy, `fullSync` returns that error, and the final
state is the one the failing step left: no later file of the walk is examined
or copied. -/
theorem C10_copy_failure_aborts (env : Env) (src dst : String) (force : Bool)
    (s0 s sc s' : State) (pre post : List WalkEntry) (rel : Path) (size : Int)
    (bytes : List Nat) (modTime : Int) (openErr : Option String) (msg : String)
    (hwalk : filepath_Walk env s0 src = pre ++ ⟨rel, .file size bytes modTime openErr⟩ :: post)
    (hpre : V35.walkLoop env dst force pre s0 = (s, .nil))
    (hres : V35.resolveConflict env force s (filepath_Join dst rel) ⟨false, size, modTime⟩
      (os_Stat env s (filepath_Join dst rel)) = some sc)
    (hneed : V35.needsCopy ⟨false, size, modTime⟩ (os_Stat env s (filepath_Join dst rel))
      = some true)
    (hfail :
      os_MkdirAll env
          { sc.send ("拷贝: " ++ rel.str) with
            copied := (sc.send ("拷贝: " ++ rel.str)).copied ++ [filepath_Join dst rel] }
          (filepath_Dir (filepath_Join dst rel)) = (s', some msg)
      ∨ (os_MkdirAll env
            { sc.send ("拷贝: " ++ rel.str) with
              copied := (sc.send ("拷贝: " ++ rel.str)).copied ++ [filepath_Join dst rel] }
            (filepath_Dir (filepath_Join dst rel)) = (s', none)
          ∧ openErr = some msg)
      ∨ (∃ s1, os_MkdirAll env
              { sc.send ("拷贝: " ++ rel.str) with
                copied := (sc.send ("拷贝: " ++ rel.str)).copied ++ [filepath_Join dst rel] }
              (filepath_Dir (filepath_Join dst rel)) = (s1, none)
          ∧ openErr = none ∧ os_Create env s1 (filepath_Join dst rel) = (s', some msg))
      ∨ (∃ s1 s2, os_MkdirAll env
              { sc.send ("拷贝: " ++ rel.str) with
                copied := (sc.send ("拷贝: " ++ rel.str)).copied ++ [filepath_Join dst rel] }
              (filepath_Dir (filepath_Join dst rel)) = (s1, none)
          ∧ openErr = none ∧ os_Create env s1 (filepath_Join dst rel) = (s2, none)
          ∧ io_Copy env s2 (filepath_Join dst rel) bytes = (s', some msg))) :
    V35.fullSync env src dst force s0 = (s', .error msg) := by
  unfold V35.fullSync
  rw [hwalk, V35.walkLoop_append env dst force pre _ s0 s hpre]
  apply V35.walkLoop_stop
  · simp
  · have hc := V35.copyFile_of_failed_step env (sc.send ("拷贝: " ++ rel.str))
      ⟨rel, .file size bytes modTime openErr⟩ (filepath_Join dst rel) s' msg hfail
    simp only [V35.walkFn, hres, hneed]
    exact hc

/-- The hypotheses and the conclusion of C10 on the walk `a`, `x`, `z` when the
creation of `d/x` is refused: `a` is copied, the sync returns the error of
`os.Create`, and `z` is never copied. -/
theorem C10_copy_failure_aborts_witness :
    V35.needsCopy ⟨false, 1, 5⟩
        (os_Stat denyCreateX
          (V35.walkLoop denyCreateX "/d" false [⟨["a"], .file 1 [7] 10 none⟩] (freshState onlyD)).1
          (filepath_Join "/d" ["x"])) = some true ∧
    (V35.fullSync denyCreateX "/s" "/d" false (freshState onlyD)).2
      = .error "open d/x: permission denied" ∧
    (V35.fullSync denyCreateX "/s" "/d" false (freshState onlyD)).1.copied
      = [["d", "a"], ["d", "x"]] ∧
    (V35.fullSync denyCreateX "/s" "/d" false (freshState onlyD)).1.fs ["d", "z"] = none :=
  have h := C10_copy_failure_aborts denyCreateX "/s" "/d" false (freshState onlyD)
    (V35.walkLoop denyCreateX "/d" false [⟨["a"], .file 1 [7] 10 none⟩] (freshState onlyD)).1
    (V35.walkLoop denyCreateX "/d" false [⟨["a"], .file 1 [7] 10 none⟩] (freshState onlyD)).1
    (os_Create denyCreateX
      (os_MkdirAll denyCreateX
        { (V35.walkLoop denyCreateX "/d" false [⟨["a"], .file 1 [7] 10 none⟩]
              (freshState onlyD)).1.send ("拷贝: " ++ Path.str ["x"]) with
          copied := ((V35.walkLoop denyCreateX "/d" false [⟨["a"], .file 1 [7] 10 none⟩]
              (freshState onlyD)).1.send ("拷贝: " ++ Path.str ["x"])).copied
                ++ [filepath_Join "/d" ["x"]] }
        (filepath_Dir (filepath_Join "/d" ["x"]))).1 (filepath_Join "/d" ["x"])).1
    [⟨["a"], .file 1 [7] 10 none⟩] [⟨["z"], .file 1 [2] 5 none⟩] ["x"] 1 [1] 5 none
    "open d/x: permission denied"
    (by decide) (Prod.ext rfl (by decide)) rfl (by decide)
    (Or.inr (Or.inr (Or.inl ⟨_, Prod.ext rfl (by decide), rfl, Prod.ext rfl (by decide)⟩)))
  ⟨by decide, by rw [h], by rw [h]; decide, by rw [h]; decide⟩

/-! ## Idempotence of the V3.5 sync -/

namespace V35

end V35

namespace V49

end V49

/-- C2 (failing input): tasks `[cmd " " (group 1), cmd "hugo" (group 1)]` with
order `"1"`. The order schedules both tasks, but `executeCommand` panics on the
first (its command line passes the empty-string guard and has no field), so
the run stops there: only the first task is dispatched, `hugo` never runs and
no completion event is sent. -/
theorem C2_run_stops_at_blank_command :
    V49.scheduled blankThenHugo "1" = blankThenHugo ∧
    (V49.run (calmEnv 0 []) blankThenHugo "1" false (freshState emptyFS)).2
      = .panic "index out of range [0] with length 0" ∧
    (V49.run (calmEnv 0 []) blankThenHugo "1" false (freshState emptyFS)).1.ran
      = [⟨"CMD", 1, "", "", "", " ", ""⟩] ∧
    (V49.run (calmEnv 0 []) blankThenHugo "1" false (freshState emptyFS)).1.st.events
      = ["正在運行組: 1"] := by
  decide

namespace V49

end V49

theorem isPrefixOf_dropLast (t : Path) (h : t ≠ []) : t.isPrefixOf t.dropLast = false := by
  cases hp : t.isPrefixOf t.dropLast with
  | false => rfl
  | true =>
    have h1 : t <+: t.dropLast := List.isPrefixOf_iff_prefix.mp hp
    have h2 := h1.length_le
    rw [List.length_dropLast] at h2
    have h3 : 0 < t.length := List.length_pos.mpr h
    omega

theorem mkdirAll_ok (env : Env) (s : State) (p : Path) (hf : env.mkdirFault p = none)
    (hb : blockedByFile s.fs p = false) :
    os_MkdirAll env s p
      = ({ s with
            fs := fun q =>
              if q.isPrefixOf p && q != [] && (s.fs q).isNone
              then some (.dir env.dirSize (env.clock s.tick)) else s.fs q,
            tick := s.tick + 1 }, none) := by
  simp [os_MkdirAll, hf, hb]

/-- After a successful `MkdirAll` of the directory of `t`, that directory
exists and `t` holds what it held. -/
theorem mkdirAll_parent (env : Env) (s : State) (t : Path)
    (hf : env.mkdirFault (filepath_Dir t) = none)
    (hb : blockedByFile s.fs (filepath_Dir t) = false) :
    parentIsDir (os_MkdirAll env s (filepath_Dir t)).1.fs t = true ∧
    (os_MkdirAll env s (filepath_Dir t)).1.fs t = s.fs t := by
  rw [mkdirAll_ok env s _ hf hb]
  simp only [filepath_Dir] at hb ⊢
  constructor
  · unfold parentIsDir
    by_cases hnil : t.dropLast = []
    · simp [hnil]
    · have hself : t.dropLast.isPrefixOf t.dropLast = true :=
        List.isPrefixOf_iff_prefix.mpr (List.prefix_refl _)
      cases hfs : s.fs t.dropLast with
      | none => simp [hnil, hself, hfs]
      | some n =>
        cases n with
        | dir size m => simp [hnil, hself, hfs]
        | file b m =>
          exfalso
          have : blockedByFile s.fs t.dropLast = true := by
            unfold blockedByFile
            rw [List.any_eq_true]
            exact ⟨t.dropLast, by simp, by simp [hfs]⟩
          rw [hb] at this
          exact Bool.false_ne_true this
  · by_cases ht : t = []
    · subst ht; simp
    · simp [isPrefixOf_dropLast t ht]

theorem create_ok (env : Env) (s : State) (p : Path) (hf : env.createFault p = none)
    (hnd : ∀ size m, s.fs p ≠ some (.dir size m)) (hp : parentIsDir s.fs p = true) :
    os_Create env s p = (s.put p (.file [] (env.clock s.tick)), none) := by
  unfold os_Create
  rw [hf]
  cases hfs : s.fs p with
  | none => simp [hp]
  | some n =>
    cases n with
    | dir size m => exact absurd hfs (hnd size m)
    | file b m => simp [hp]

/-- Without the directory of `p`, `os.Create` fails and changes nothing. -/
theorem create_fails_without_parent (env : Env) (s : State) (p : Path)
    (hp : parentIsDir s.fs p = false) : ∃ msg, os_Create env s p = (s, some msg) := by
  unfold os_Create
  cases hf : env.createFault p with
  | some msg => exact ⟨msg, rfl⟩
  | none =>
    cases hfs : s.fs p with
    | none => simp [hp]
    | some n =>
      cases n with
      | dir size m => simp
      | file b m => simp [hp]

/-- C7 (counterexample): `fullSync` of src/main.go with force=false on a source
file `sub/a.txt` whose subdirectory does not exist in the destination `d`. The
event is sent and `copyFile` is called, but no directory is made and the file
is not copied: `d/sub` and `d/sub/a.txt` stay absent. -/
theorem C7_no_parent_without_force :
    (V49.fullSync (calmEnv 0 inSub) "/s" "/d" false (freshState onlyD)).events
      = ["同步: sub/a.txt"] ∧
    (V49.fullSync (calmEnv 0 inSub) "/s" "/d" false (freshState onlyD)).copied
      = [["d", "sub", "a.txt"]] ∧
    (V49.fullSync (calmEnv 0 inSub) "/s" "/d" false (freshState onlyD)).fs ["d", "sub"]
      = none ∧
    (V49.fullSync (calmEnv 0 inSub) "/s" "/d" false (freshState onlyD)).fs ["d", "sub", "a.txt"]
      = none := by
  decide

/-- C7 (amended): in `fullSync` of src/main.go the parent directory chain of the
target is made before the copy only when force is true. With force=true, when
no system call is refused, no component of the chain is a regular file, the
source opens and the target is not a directory, the target ends up holding the
source's content, byte for byte. With force=false, a file whose target
directory does not exist is not copied: the event is sent and the file system
stays as it was. -/
theorem C7_parents_created_only_with_force (env : Env) (dst : String) (s : State) (rel : Path)
    (size : Int) (bytes : List Nat) (modTime : Int) :
    (env.mkdirFault (filepath_Dir (filepath_Join dst rel)) = none →
      env.createFault (filepath_Join dst rel) = none →
      env.copyFault (filepath_Join dst rel) = none →
      blockedByFile s.fs (filepath_Dir (filepath_Join dst rel)) = false →
      (∀ dsize m, s.fs (filepath_Join dst rel) ≠ some (.dir dsize m)) →
      parentIsDir (V49.walkFn env dst true s ⟨rel, .file size bytes modTime none⟩).fs
          (filepath_Join dst rel) = true ∧
      ∃ k, (V49.walkFn env dst true s ⟨rel, .file size bytes modTime none⟩).fs (filepath_Join dst rel)
        = some (.file bytes (env.clock k))) ∧
    (∀ openErr : Option String, filepath_Dir (filepath_Join dst rel) ≠ [] →
      s.fs (filepath_Dir (filepath_Join dst rel)) = none →
      (V49.walkFn env dst false s ⟨rel, .file size bytes modTime openErr⟩).fs = s.fs ∧
      (V49.walkFn env dst false s ⟨rel, .file size bytes modTime openErr⟩).events
        = s.events ++ ["同步: " ++ rel.str]) := by
  constructor
  · intro hm hc hcp hb hnd
    obtain ⟨hpar, hsame⟩ := mkdirAll_parent env s (filepath_Join dst rel) hm hb
    have hcreate := create_ok env
      { (os_MkdirAll env s (filepath_Dir (filepath_Join dst rel))).1.send ("同步: " ++ rel.str) with
        copied := ((os_MkdirAll env s (filepath_Dir (filepath_Join dst rel))).1.send
          ("同步: " ++ rel.str)).copied ++ [filepath_Join dst rel] }
      (filepath_Join dst rel) hc
      (by intro size m; simp only [send_fs]; rw [hsame]; exact hnd size m)
      (by simpa using hpar)
    simp only [V49.walkFn, ↓reduceIte, V49.copyFile, WalkEntry.openErr, WalkEntry.bytes, hcreate,
      io_Copy, hcp]
    constructor
    · unfold parentIsDir at hpar ⊢
      by_cases hnil : (filepath_Join dst rel).dropLast = []
      · simp [hnil]
      · have hne : (filepath_Join dst rel).dropLast ≠ filepath_Join dst rel := by
          intro h
          have := congrArg List.length h
          rw [List.length_dropLast] at this
          have h3 : 0 < (filepath_Join dst rel).length := by
            rcases List.eq_nil_or_concat (filepath_Join dst rel) with h4 | ⟨l, a, h4⟩
            · rw [h4] at hnil; simp at hnil
            · rw [h4]; simp
          omega
        simpa [State.put, hne, hnil] using hpar
    · exact ⟨_, put_fs_self _ _ _⟩
  · intro openErr hnil hnone
    simp only [V49.walkFn, Bool.false_eq_true, ↓reduceIte, V49.copyFile, WalkEntry.openErr]
    cases openErr with
    | some msg => exact ⟨rfl, rfl⟩
    | none =>
      have hp : parentIsDir s.fs (filepath_Join dst rel) = false := by
        simp only [filepath_Dir] at hnil hnone
        simp [parentIsDir, hnil, hnone]
      obtain ⟨msg, hmsg⟩ := create_fails_without_parent env
        { s.send ("同步: " ++ rel.str) with
          copied := (s.send ("同步: " ++ rel.str)).copied ++ [filepath_Join dst rel] }
        (filepath_Join dst rel) hp
      simp only [hmsg]
      exact ⟨rfl, rfl⟩

/-- The hypotheses and the conclusion of C7 (amended) with force=true on the
file `sub/a.txt` and the destination `d`: `d/sub` is made and `d/sub/a.txt`
holds the three bytes of the source. -/
theorem C7_parents_created_only_with_force_witness :
    blockedByFile (freshState onlyD).fs (filepath_Dir (filepath_Join "/d" ["sub", "a.txt"]))
      = false ∧
    (∃ k, (V49.walkFn (calmEnv 0 inSub) "/d" true (freshState onlyD)
        ⟨["sub", "a.txt"], .file 3 [1, 2, 3] 10 none⟩).fs (filepath_Join "/d" ["sub", "a.txt"])
      = some (.file [1, 2, 3] ((calmEnv 0 inSub).clock k))) ∧
    (V49.fullSync (calmEnv 0 inSub) "/s" "/d" true (freshState onlyD)).fs ["d", "sub"]
      = some (.dir 0 0) :=
  ⟨by decide,
   ((C7_parents_created_only_with_force (calmEnv 0 inSub) "/d" (freshState onlyD)
      ["sub", "a.txt"] 3 [1, 2, 3] 10).1 rfl rfl rfl (by decide)
      (by
        intro size m
        have h0 : (freshState onlyD).fs (filepath_Join "/d" ["sub", "a.txt"]) = none := by decide
        rw [h0]
        exact Option.noConfusion)).2,
   by decide⟩

/-! ## Empty paths and failing commands in the V4.9 run loop -/

namespace V49

/-- A sync from the empty source does nothing: the walk only reports the error
of `Lstat`. -/
theorem fullSync_of_empty_src (env : Env) (dst : String) (force : Bool) (s : State) :
    fullSync env "" dst force s = s := by
  simp [fullSync, filepath_Walk, walkFn]

end V49

/-- C8 (failing input): one sync task of group 1 with `Src = "/s"` and an empty
`Dst`, order `"1"`. The task is not skipped: the event of the file `f.txt` is
sent, `copyFile` is called with the target `f.txt` (relative to the working
directory) and the file is created there. -/
theorem C8_empty_dst_is_synced :
    (V49.run (calmEnv 0 oneF) syncToNowhere "1" false (freshState emptyFS)).1.st.events
      = ["正在運行組: 1", "同步: f.txt", "✅ 全部組任務執行完畢"] ∧
    (V49.run (calmEnv 0 oneF) syncToNowhere "1" false (freshState emptyFS)).1.st.copied
      = [["f.txt"]] ∧
    (V49.run (calmEnv 0 oneF) syncToNowhere "1" false (freshState emptyFS)).1.st.fs ["f.txt"]
      = some (.file [1] 0) := by
  decide

namespace V35

/-- The callback returns nil, changing nothing, on every entry that the walk
reports with an error. -/
theorem walkFn_of_walk_error (env : Env) (dst : String) (force : Bool) (s : State)
    (e : WalkEntry) (msg : String) (h : e.err = some msg) :
    walkFn env dst force s e = (s, .nil) := by
  unfold walkFn
  cases hn : e.node with
  | unreadable m => rfl
  | dir size modTime listErr => rfl
  | file size bytes modTime openErr => simp [WalkEntry.err, hn] at h

/-- When `Stat` of the target fails with an error other than not-exist, the
callback on a regular file panics: line 267 calls `Size()` on the nil info. -/
theorem walkFn_of_stat_failed (env : Env) (dst : String) (force : Bool) (s : State) (rel : Path)
    (size : Int) (bytes : List Nat) (modTime : Int) (openErr : Option String) (msg : String)
    (h : os_Stat env s (filepath_Join dst rel) = .failed msg) :
    walkFn env dst force s ⟨rel, .file size bytes modTime openErr⟩
      = (s, .panic "invalid memory address or nil pointer dereference") := by
  simp [walkFn, h, resolveConflict, needsCopy]

end V35

/-- C11 (counterexample): the walk of an existing source root reports the
directory `sub` with the error of listing it, then visits the file `z`. The
sync is not aborted: `fullSync` returns nil and `z` is copied. -/
theorem C11_walk_error_does_not_abort :
    (⟨["sub"], .dir 0 0 (some "open /s/sub: permission denied")⟩ : WalkEntry).err
      = some "open /s/sub: permission denied" ∧
    (V35.fullSync (calmEnv 0 lockedSubThenZ) "/s" "/d" false (freshState onlyD)).2 = .nil ∧
    (V35.fullSync (calmEnv 0 lockedSubThenZ) "/s" "/d" false (freshState onlyD)).1.copied
      = [["d", "z"]] ∧
    (V35.fullSync (calmEnv 0 lockedSubThenZ) "/s" "/d" false (freshState onlyD)).1.fs ["d", "z"]
      = some (.file [2] 0) := by
  decide

/-- C11 (amended): in `fullSync` of src/2026021201/main.go an error that the
walk reports for an entry, under an existing root or for the root itself, is
skipped: the callback returns nil and changes nothing, the sync goes on with
the entries after it, and when it was the last entry `fullSync` returns nil.
The empty source path is such a no-op with a nil result. -/
theorem C11_walk_error_is_skipped (env : Env) (src dst : String) (force : Bool) (s0 s : State)
    (pre post : List WalkEntry) (e : WalkEntry) (msg : String)
    (hwalk : filepath_Walk env s0 src = pre ++ e :: post)
    (hpre : V35.walkLoop env dst force pre s0 = (s, .nil))
    (herr : e.err = some msg) :
    V35.walkFn env dst force s e = (s, .nil) ∧
    V35.fullSync env src dst force s0 = V35.walkLoop env dst force post s ∧
    (post = [] → V35.fullSync env src dst force s0 = (s, .nil)) ∧
    V35.fullSync env "" dst force s0 = (s0, .nil) := by
  have h1 := V35.walkFn_of_walk_error env dst force s e msg herr
  have h2 : V35.fullSync env src dst force s0 = V35.walkLoop env dst force post s := by
    unfold V35.fullSync
    rw [hwalk, V35.walkLoop_append env dst force pre _ s0 s hpre]
    simp only [V35.walkLoop, h1]
  refine ⟨h1, h2, ?_, ?_⟩
  · intro hp
    rw [h2, hp]
    rfl
  · simp [V35.fullSync, filepath_Walk, V35.walkLoop, V35.walkFn]

/-- The hypotheses and the conclusion of C11 (amended) on the walk that
reports `sub` with an error and then visits `z`: the sync goes on with `z`. -/
theorem C11_walk_error_is_skipped_witness :
    filepath_Walk (calmEnv 0 lockedSubThenZ) (freshState onlyD) "/s"
      = [] ++ ⟨["sub"], .dir 0 0 (some "open /s/sub: permission denied")⟩
          :: [⟨["z"], .file 1 [2] 5 none⟩] ∧
    V35.fullSync (calmEnv 0 lockedSubThenZ) "/s" "/d" false (freshState onlyD)
      = V35.walkLoop (calmEnv 0 lockedSubThenZ) "/d" false [⟨["z"], .file 1 [2] 5 none⟩]
          (freshState onlyD) :=
  ⟨by decide,
   (C11_walk_error_is_skipped (calmEnv 0 lockedSubThenZ) "/s" "/d" false (freshState onlyD)
      (freshState onlyD) [] [⟨["z"], .file 1 [2] 5 none⟩]
      ⟨["sub"], .dir 0 0 (some "open /s/sub: permission denied")⟩
      "open /s/sub: permission denied" (by decide) rfl rfl).2.1⟩

/-- C12 (failing input): the source file `a` whose target `d/a` cannot be
examined (`os.Stat` fails with permission denied, which is not a not-exist
error). The info returned by `Stat` is nil, the conflict check is skipped,
`os.IsNotExist(err)` is false, and line 267 goes on to read `tInfo.Size()`:
`fullSync` panics with a nil dereference, before any event or copy. -/
theorem C12_failed_stat_reads_nil_info :
    os_Stat denyStatA (freshState onlyD) (filepath_Join "/d" ["a"])
      = .failed "stat d/a: permission denied" ∧
    V35.needsCopy ⟨false, 1, 10⟩ (.failed "stat d/a: permission denied") = none ∧
    (V35.fullSync denyStatA "/s" "/d" false (freshState onlyD)).2
      = .panic "invalid memory address or nil pointer dereference" ∧
    (V35.fullSync denyStatA "/s" "/d" false (freshState onlyD)).1.events = [] ∧
    (V35.fullSync denyStatA "/s" "/d" false (freshState onlyD)).1.copied = [] := by
  decide

/-- C13 (failing input): the command line made of one blank passes the
empty-string guard, `strings.Fields` gives no field for it, and
`executeCommand` panics at `args[0]` in all three versions of the program,
before any event is sent. -/
theorem C13_blank_command_has_no_field :
    (" " : String) ≠ "" ∧
    strings_Fields " " = [] ∧
    V49.executeCommand (calmEnv 0 []) (freshState emptyFS) " " ""
      = (freshState emptyFS, .panic "index out of range [0] with length 0") ∧
    V35.executeCommand (calmEnv 0 []) (freshState emptyFS) " " ""
      = (freshState emptyFS, .panic "index out of range [0] with length 0") ∧
    V40.executeCommand (calmEnv 0 []) (freshState emptyFS) " " ""
      = (freshState emptyFS, .panic "index out of range [0] with length 0") := by
  refine ⟨by decide, by decide, ?_, ?_, ?_⟩
  · have h : strings_Fields " " = [] := by decide
    simp [V49.executeCommand, h]
  · have h : strings_Fields " " = [] := by decide
    simp [V35.executeCommand, h]
  · have h : strings_Fields " " = [] := by decide
    simp [V40.executeCommand, h]

end HugoSync
